import Mathlib

/-!
Verification model of the Janitor health-monitoring service
(`src/JanitorService.ts` of `bsv-blockchain/overlay-express`).

The TypeScript class `JanitorService` is embedded shallowly:

* Mongo documents become `OutputRecord` (fields that the code inspects with
  `typeof` checks become `Option JSVal` values);
* the WHATWG `URL` constructor used by `isValidDomain` and
  `checkHealthEndpoint` is modelled by `parseURL` below, a faithful fragment
  of the WHATWG URL standard's basic parser restricted to what hostname
  extraction needs (scheme parsing, special-scheme slash slurping, authority
  splitting, forbidden host code points, ASCII lowercasing, the
  ends-in-a-number check and the IPv4 parser with its 255-per-part bound and
  dotted-quad serialization).  Percent-decoding, punycode/IDNA for non-ASCII
  hosts and the `file:` empty-host special case are outside the fragment; no
  theorem below depends on them;
* the effectful collaborators (Mongo collection reads/writes, `fetch`, the
  abort timer) are an explicit environment `JanitorEnv`; each evaluated
  operation is recorded as an `Event` and fallibility is an `Except`;
* all character classification is done through `Char.toNat` so that facts
  about symbolic characters reduce to arithmetic.
-/

set_option maxHeartbeats 1000000
set_option maxRecDepth 100000

namespace OverlayExpress

/-- A JavaScript value as far as the Janitor's `typeof`-style checks look at
it: a string, a number (the `down` counter is only ever an integer), or
anything else. -/
inductive JSVal where
  | str (s : String)
  | num (n : Int)
  | other
deriving DecidableEq

/-- A SHIP/SLAP output document.  Only the fields the Janitor reads are
modelled; `id` stands for the Mongo `_id`.  The `txid`/`outputIndex` fields
appear only inside log strings and are not modelled. -/
structure OutputRecord where
  id : Nat
  domain : Option JSVal := none
  url : Option JSVal := none
  serviceURL : Option JSVal := none
  protocols : Option (List JSVal) := none
  down : Option JSVal := none
deriving DecidableEq

/-- Characters of the literal `"http"` (for `url.startsWith('http')`). -/
def httpChars : List Char := ['h', 't', 't', 'p']

/-- Characters of the literal `"https://"`. -/
def httpsSchemeChars : List Char := ['h', 't', 't', 'p', 's', ':', '/', '/']

/-- `String.prototype.startsWith` on character lists. -/
def startsWithChars : List Char → List Char → Bool
  | [], _ => true
  | _ :: _, [] => false
  | p :: ps, c :: cs => p = c && startsWithChars ps cs

/-- `typeof p === 'string' && p.startsWith('https://')` — the predicate the
code applies to entries of a `protocols` array. -/
def isHttpsString (p : JSVal) : Bool :=
  match p with
  | .str s => startsWithChars httpsSchemeChars s.data
  | _ => false

/-- `extractURLFromOutput` (JanitorService.ts lines 109–135): the first of
`domain`, `url`, `serviceURL` that holds a string, else the first
`https://`-prefixed string in a nonempty `protocols` array, else `null`.
The function's own `try/catch` cannot fire (plain property reads do not
throw), so the model is total. -/
def extractURLFromOutput (o : OutputRecord) : Option String :=
  match o.domain with
  | some (.str s) => some s
  | _ =>
    match o.url with
    | some (.str s) => some s
    | _ =>
      match o.serviceURL with
      | some (.str s) => some s
      | _ =>
        match o.protocols with
        | some ps =>
          if ps.length > 0 then
            match ps.find? isHttpsString with
            | some (.str s) => some s
            | _ => none
          else none
        | none => none

/-! ## Character classes (via `Char.toNat`) -/

/-- ASCII decimal digit. -/
def isDigitChar (c : Char) : Bool := 48 ≤ c.toNat && c.toNat ≤ 57

/-- ASCII hexadecimal digit. -/
def isHexDigitChar (c : Char) : Bool :=
  (48 ≤ c.toNat && c.toNat ≤ 57) || (97 ≤ c.toNat && c.toNat ≤ 102) ||
    (65 ≤ c.toNat && c.toNat ≤ 70)

/-- ASCII octal digit. -/
def isOctalDigitChar (c : Char) : Bool := 48 ≤ c.toNat && c.toNat ≤ 55

/-- ASCII letter. -/
def isAsciiAlpha (c : Char) : Bool :=
  (97 ≤ c.toNat && c.toNat ≤ 122) || (65 ≤ c.toNat && c.toNat ≤ 90)

/-- Scheme code point after the first (URL standard): letter, digit, `+`,
`-` or `.`. -/
def isSchemeChar (c : Char) : Bool :=
  isAsciiAlpha c || isDigitChar c || c.toNat = 43 || c.toNat = 45 || c.toNat = 46

/-- Numeric value of a hex digit. -/
def hexVal (c : Char) : Nat :=
  if c.toNat ≤ 57 then c.toNat - 48
  else if c.toNat ≤ 70 then c.toNat - 55
  else c.toNat - 87

/-- Digits to a number in radix `r` (most significant first). -/
def fromRadix (r : Nat) (l : List Char) : Nat :=
  l.foldl (fun a c => a * r + hexVal c) 0

/-! ## WHATWG URL model -/

/-- Forbidden host code point (URL standard): NUL, TAB, LF, CR, space,
`#`, `/`, `:`, `<`, `>`, `?`, `@`, `[`, `\`, `]`, `^`, `|`. -/
def forbiddenHostChar (c : Char) : Bool :=
  c.toNat = 0 || c.toNat = 9 || c.toNat = 10 || c.toNat = 13 ||
  c.toNat = 32 || c.toNat = 35 || c.toNat = 47 || c.toNat = 58 ||
  c.toNat = 60 || c.toNat = 62 || c.toNat = 63 || c.toNat = 64 ||
  c.toNat = 91 || c.toNat = 92 || c.toNat = 93 || c.toNat = 94 ||
  c.toNat = 124

/-- Split a character list at every `.` (46). -/
def splitDots : List Char → List (List Char)
  | [] => [[]]
  | c :: r =>
    let parts := splitDots r
    if c.toNat = 46 then [] :: parts
    else
      match parts with
      | p :: ps => (c :: p) :: ps
      | [] => [[c]]

/-- WHATWG "ends in a number": the last nonempty dot-separated label is all
digits, or is `0x`/`0X` followed by hex digits. -/
def endsInNumber (l : List Char) : Bool :=
  let parts := splitDots l
  let parts := if parts.getLast? = some [] then parts.dropLast else parts
  match parts.getLast? with
  | none => false
  | some last =>
    (!last.isEmpty && last.all isDigitChar) ||
    (match last with
     | c0 :: cx :: r =>
       c0.toNat = 48 && (cx.toNat = 120 || cx.toNat = 88) && r.all isHexDigitChar
     | _ => false)

/-- WHATWG IPv4 number parser: `0x…` is hex, a `0`-led multi-digit part is
octal, otherwise decimal; a non-digit of the radix is a failure. -/
def ipv4NumberPart (l : List Char) : Option Nat :=
  match l with
  | [] => none
  | c0 :: c1 :: rest =>
    if c0.toNat = 48 && (c1.toNat = 120 || c1.toNat = 88) then
      if rest.isEmpty then some 0
      else if rest.all isHexDigitChar then some (fromRadix 16 rest) else none
    else if c0.toNat = 48 then
      if (c1 :: rest).all isOctalDigitChar then some (fromRadix 8 (c1 :: rest)) else none
    else if (c0 :: c1 :: rest).all isDigitChar then some (fromRadix 10 (c0 :: c1 :: rest))
    else none
  | [c] => if isDigitChar c then some (fromRadix 10 [c]) else none

/-- Parse every dotted part with `ipv4NumberPart`. -/
def ipv4NumberList : List (List Char) → Option (List Nat)
  | [] => some []
  | p :: ps =>
    match ipv4NumberPart p, ipv4NumberList ps with
    | some n, some ns => some (n :: ns)
    | _, _ => none

/-- Decimal digits of a number, as characters. -/
def reprChars (n : Nat) : List Char := (Nat.repr n).data

/-- WHATWG IPv4 serializer: the four bytes in decimal, dot separated. -/
def serializeIPv4 (n : Nat) : List Char :=
  reprChars (n / 16777216 % 256) ++ '.' ::
  (reprChars (n / 65536 % 256) ++ '.' ::
  (reprChars (n / 256 % 256) ++ '.' :: reprChars (n % 256)))

/-- WHATWG IPv4 parser on a host that ends in a number: at most four parts,
every part a valid IPv4 number, all but the last at most 255, the last below
`256^(5-k)`; the value is the 32-bit address. -/
def parseIPv4 (l : List Char) : Option Nat :=
  let parts := splitDots l
  let parts := if parts.getLast? = some [] && parts.length > 1 then parts.dropLast else parts
  if parts.length > 4 then none
  else
    match ipv4NumberList parts with
    | none => none
    | some nums =>
      if nums.dropLast.any (fun n => 255 < n) then none
      else
        match nums.getLast? with
        | none => none
        | some last =>
          if 256 ^ (5 - nums.length) ≤ last then none
          else some (nums.dropLast.foldl (fun a n => a * 256 + n) 0 * 256 ^ (5 - nums.length) + last)

/-- WHATWG host parser for a special scheme: nonempty, no forbidden code
point, ASCII-lowercased; when the result ends in a number it must parse as
IPv4 and is re-serialized as a dotted quad.  (Percent-decoding and punycode
are outside the modelled fragment.) -/
def parseHost (l : List Char) : Option (List Char) :=
  if l.isEmpty then none
  else if l.any forbiddenHostChar then none
  else
    let d := l.map Char.toLower
    if endsInNumber d then (parseIPv4 d).map serializeIPv4
    else some d

/-- Opaque-host parser (non-special schemes): forbidden code points rejected,
otherwise kept verbatim; may be empty. -/
def parseOpaqueHost (l : List Char) : Option (List Char) :=
  if l.any forbiddenHostChar then none else some l

/-- The scheme/host/port of a parsed URL (all that the Janitor reads). -/
structure URLParts where
  scheme : List Char
  host : List Char
  port : Option Nat
deriving DecidableEq

/-- A URL's special schemes and their default ports. -/
def defaultPort (scheme : List Char) : Option Nat :=
  if scheme = ['h', 't', 't', 'p'] || scheme = ['w', 's'] then some 80
  else if scheme = ['h', 't', 't', 'p', 's'] || scheme = ['w', 's', 's'] then some 443
  else if scheme = ['f', 't', 'p'] then some 21
  else none

/-- Is this one of the URL standard's special schemes? -/
def isSpecialScheme (scheme : List Char) : Bool :=
  scheme = ['h', 't', 't', 'p'] || scheme = ['h', 't', 't', 'p', 's'] ||
  scheme = ['w', 's'] || scheme = ['w', 's', 's'] ||
  scheme = ['f', 't', 'p'] || scheme = ['f', 'i', 'l', 'e']

/-- Leading `[a-zA-Z][a-zA-Z0-9+.-]*:` split into (lowercased scheme, rest);
`none` when the input has no scheme (a schemeless string with no base URL is
a parse failure). -/
def splitScheme (l : List Char) : Option (List Char × List Char) :=
  match l with
  | [] => none
  | c :: _ =>
    if !isAsciiAlpha c then none
    else
      match l.dropWhile isSchemeChar with
      | r0 :: r => if r0.toNat = 58 then some ((l.takeWhile isSchemeChar).map Char.toLower, r) else none
      | [] => none

/-- The authority's host[:port] section: the text after the last `@`. -/
def afterLastAt (l : List Char) : List Char :=
  (l.reverse.takeWhile (fun c => !(c.toNat = 64))).reverse

/-- Parse and validate an optional `:port` tail (digits only, ≤ 65535,
default ports elided). -/
def parsePort (scheme : List Char) (hp : List Char) : Option (Option Nat) :=
  if hp.any (fun c => c.toNat = 58) then
    let pl := ((hp.dropWhile (fun c => !(c.toNat = 58))).drop 1)
    if pl.isEmpty then some none
    else if pl.all isDigitChar then
      let v := fromRadix 10 pl
      if v ≤ 65535 then (if defaultPort scheme = some v then some none else some (some v)) else none
    else none
  else some none

/-- The URL standard's input cleanup: trim leading/trailing C0 controls and
spaces, then remove every tab and newline. -/
def urlPreprocess (input : List Char) : List Char :=
  (((input.dropWhile (fun c => c.toNat ≤ 32)).reverse.dropWhile
      (fun c => c.toNat ≤ 32)).reverse).filter
    (fun c => !(c.toNat = 9 || c.toNat = 10 || c.toNat = 13))

/-- Model of the WHATWG URL basic parser, restricted to scheme, host and
port (`new URL(input)` with no base).  The input is trimmed of C0
controls/spaces and stripped of tabs and newlines; a special scheme slurps
every `/` or `\` before the authority; the authority stops at `/`, `\`, `?`
or `#`. -/
def parseURL (input : List Char) : Option URLParts :=
  match splitScheme (urlPreprocess input) with
  | none => none
  | some (scheme, rest) =>
    if isSpecialScheme scheme then
      let rest := rest.dropWhile (fun c => c.toNat = 47 || c.toNat = 92)
      let auth := rest.takeWhile
        (fun c => !(c.toNat = 47 || c.toNat = 92 || c.toNat = 63 || c.toNat = 35))
      let hp := afterLastAt auth
      let hostPart := hp.takeWhile (fun c => !(c.toNat = 58))
      match parseHost hostPart with
      | none => none
      | some host =>
        match parsePort scheme hp with
        | none => none
        | some port => some ⟨scheme, host, port⟩
    else
      match rest with
      | '/' :: '/' :: r =>
        let auth := r.takeWhile (fun c => !(c.toNat = 47 || c.toNat = 63 || c.toNat = 35))
        let hp := afterLastAt auth
        let hostPart := hp.takeWhile (fun c => !(c.toNat = 58))
        match parseOpaqueHost hostPart with
        | none => none
        | some host =>
          match parsePort scheme hp with
          | none => none
          | some port => some ⟨scheme, host, port⟩
      | _ => some ⟨scheme, [], none⟩

/-! ## The validation regexes of `isValidDomain` -/

/-- Lowercase letter or digit (the regexes run case-insensitively; tests
lowercase their input first). -/
def isLowerAlnum (c : Char) : Bool :=
  (97 ≤ c.toNat && c.toNat ≤ 122) || (48 ≤ c.toNat && c.toNat ≤ 57)

/-- `[a-z0-9-]`. -/
def isLabelChar (c : Char) : Bool := isLowerAlnum c || c.toNat = 45

/-- One non-final label: `[a-z0-9](?:[a-z0-9-]{0,61}[a-z0-9])?`. -/
def nonFinalLabelOk (l : List Char) : Bool :=
  match l with
  | [] => false
  | [c] => isLowerAlnum c
  | c :: rest =>
    isLowerAlnum c && rest.length ≤ 62 && rest.dropLast.all isLabelChar &&
      (match rest.getLast? with
       | some d => isLowerAlnum d
       | none => false)

/-- The final label: `[a-z0-9][a-z0-9-]{0,61}[a-z0-9]` (length ≥ 2). -/
def finalLabelOk (l : List Char) : Bool :=
  match l with
  | [] => false
  | [_] => false
  | c :: rest =>
    isLowerAlnum c && rest.length ≤ 62 && rest.dropLast.all isLabelChar &&
      (match rest.getLast? with
       | some d => isLowerAlnum d
       | none => false)

/-- `domainRegex` of JanitorService.ts line 149:
`/^(?:[a-z0-9](?:[a-z0-9-]{0,61}[a-z0-9])?\.)+[a-z0-9][a-z0-9-]{0,61}[a-z0-9]$/i`.
Since `.` is in neither character class, the regex matches exactly when the
dot-separated labels (at least two) satisfy the label patterns. -/
def domainRegexTest (hostname : List Char) : Bool :=
  let h := hostname.map Char.toLower
  let parts := splitDots h
  match parts with
  | [] => false
  | [_] => false
  | _ =>
    parts.dropLast.all nonFinalLabelOk &&
      (match parts.getLast? with
       | some last => finalLabelOk last
       | none => false)

/-- `localhostRegex` of line 150: `/^localhost$/i`. -/
def localhostTest (hostname : List Char) : Bool :=
  hostname.map Char.toLower = ['l', 'o', 'c', 'a', 'l', 'h', 'o', 's', 't']

/-- `ipv4Regex` of line 151: `/^(\d{1,3}\.){3}\d{1,3}$/` — four dot-separated
groups of one to three digits. -/
def ipv4RegexTest (hostname : List Char) : Bool :=
  let parts := splitDots (hostname.map Char.toLower)
  parts.length = 4 &&
    parts.all (fun p => !p.isEmpty && p.length ≤ 3 && p.all isDigitChar)

/-- `url.startsWith('http') ? url : 'https://' + url` — the string the code
hands to `new URL`. -/
def fullChars (url : String) : List Char :=
  if startsWithChars httpChars url.data then url.data else httpsSchemeChars ++ url.data

/-- `isValidDomain` (lines 140–157): parse (with the `startsWith('http')`
scheme-defaulting rule), then test the hostname against the three regexes;
a parse failure is caught and is `false`. -/
def isValidDomain (url : String) : Bool :=
  match parseURL (fullChars url) with
  | none => false
  | some parts =>
    domainRegexTest parts.host || localhostTest parts.host || ipv4RegexTest parts.host

/-! ## Store, probe and sweep model -/

/-- A mutation issued to the Mongo collection: `updateOne(_id, {$inc: {down: delta}})`
or `deleteOne(_id)`. -/
inductive StoreAction where
  | inc (id : Nat) (delta : Int)
  | del (id : Nat)
deriving DecidableEq

/-- The log lines the claims talk about (routine info lines are not
modelled): the health-check timeout warning (line 192), the invalid-domain
warning (line 87), the per-record error (line 101), the handler-level store
error (lines 217 and 244), the per-collection error (line 70). -/
inductive LogKind where
  | timeout
  | invalidDomain
  | checkError
  | handlerError
  | collectionError
deriving DecidableEq

/-- Observable steps of one pass: a health probe `GET` against a URL, a
store mutation (with whether the store accepted it) and a log line. -/
inductive Event where
  | probe (url : String)
  | store (a : StoreAction) (ok : Bool)
  | log (k : LogKind)
deriving DecidableEq

/-- What a bounded `fetch` of a health URL came back with: a response with
`response.ok` and a body (`none` when `response.json()` throws; otherwise
the value of `data?.status`, `none` when absent/`undefined`), or a network
error. -/
inductive FetchResult where
  | response (ok : Bool) (body : Option (Option JSVal))
  | networkError
deriving DecidableEq

/-- How a probe behaves: how long the request takes (the abort timer fires
when it exceeds `requestTimeoutMs`) and what it resolves to otherwise. -/
structure FetchBehavior where
  duration : Nat
  result : FetchResult
deriving DecidableEq

/-- The constructor configuration (lines 29–34) with its defaults. -/
structure JanitorConfig where
  requestTimeoutMs : Nat := 10000
  hostDownRevokeScore : Int := 3
deriving DecidableEq

/-- The external collaborators of one pass: the per-collection fetch-all
(which can reject), the probe behavior per health URL, whether each store
write succeeds, and `recordFault` — an exception thrown while evaluating a
given record (spec §4.1 step f; the outer catch of `checkOutput`,
lines 100–103).  `extractURLFromOutput` itself cannot throw (it has its own
catch), so the fault models a throw in the validate/probe/transition
steps. -/
structure JanitorEnv where
  fetchAll : String → Except Unit (List OutputRecord)
  fetchBehavior : String → FetchBehavior
  write : StoreAction → Bool
  recordFault : OutputRecord → Bool

/-- `typeof output.down === 'number' ? output.down : 0` (lines 206 and 226). -/
def downValue (o : OutputRecord) : Int :=
  match o.down with
  | some (.num d) => d
  | _ => 0

/-- Issue one store action: the attempt is always recorded; a rejected write
is caught by the surrounding handler `try/catch`, which logs and returns
(lines 216–218, 243–245). -/
def issueWrite (env : JanitorEnv) (a : StoreAction) : List Event :=
  if env.write a then [Event.store a true] else [Event.store a false, Event.log .handlerError]

/-- `handleHealthyOutput` (lines 204–219): decrement `down` by 1 when the
snapshot value is a positive number, otherwise do nothing. -/
def handleHealthyOutput (env : JanitorEnv) (o : OutputRecord) : List Event :=
  let currentDown := downValue o
  if currentDown > 0 then issueWrite env (StoreAction.inc o.id (-1))
  else []

/-- `handleUnhealthyOutput` (lines 224–246): `newDown = down + 1`; at or
above `hostDownRevokeScore` delete the record, otherwise increment `down`
by 1.  Store failures are caught inside the handler. -/
def handleUnhealthyOutput (cfg : JanitorConfig) (env : JanitorEnv) (o : OutputRecord) :
    List Event :=
  let currentDown := downValue o
  let newDown := currentDown + 1
  if newDown ≥ cfg.hostDownRevokeScore then issueWrite env (StoreAction.del o.id)
  else issueWrite env (StoreAction.inc o.id 1)

/-- `new URL('/health', fullURL).toString()`: the health URL the probe hits,
when the base parses. -/
def healthProbeURL (url : String) : Option String :=
  (parseURL (fullChars url)).map (fun p =>
    String.mk (p.scheme ++ ':' :: '/' :: '/' :: p.host ++
      (match p.port with
       | some v => ':' :: reprChars v
       | none => []) ++ ['/', 'h', 'e', 'a', 'l', 't', 'h']))

/-- `checkHealthEndpoint` (lines 162–199): resolve `/health` against the
address (a base parse failure is caught by the outer catch and yields
`false` with no request); a fetch that outlives the abort timer rejects with
`AbortError`, which logs the timeout warning and yields `false`; otherwise
a non-ok status, a body that fails to parse, or a `status` other than the
string `"ok"` all yield `false`.  Returns (healthy?, events). -/
def checkHealthEndpoint (cfg : JanitorConfig) (env : JanitorEnv) (url : String) :
    Bool × List Event :=
  match healthProbeURL url with
  | none => (false, [])
  | some healthURL =>
    let b := env.fetchBehavior healthURL
    if cfg.requestTimeoutMs < b.duration then
      (false, [Event.probe healthURL, Event.log .timeout])
    else
      match b.result with
      | .networkError => (false, [Event.probe healthURL])
      | .response ok body =>
        if !ok then (false, [Event.probe healthURL])
        else
          match body with
          | none => (false, [Event.probe healthURL])
          | some st =>
            (match st with
             | some (.str s) => s = "ok"
             | _ => false, [Event.probe healthURL])

/-- `checkOutput` (lines 77–104): skip when no URL extracts; an invalid
domain logs and takes the unhealthy transition without probing; otherwise
probe and transition on the outcome.  Any exception inside the try block
(modelled by `recordFault`) is caught, logged, and answered with a
best-effort unhealthy transition whose own failure is swallowed
(`.catch(() => {})`). -/
def checkOutput (cfg : JanitorConfig) (env : JanitorEnv) (o : OutputRecord) : List Event :=
  match extractURLFromOutput o with
  | none => []
  | some url =>
    if env.recordFault o then
      Event.log .checkError :: handleUnhealthyOutput cfg env o
    else if !isValidDomain url then
      Event.log .invalidDomain :: handleUnhealthyOutput cfg env o
    else
      let r := checkHealthEndpoint cfg env url
      r.2 ++ (if r.1 then handleHealthyOutput env o else handleUnhealthyOutput cfg env o)

/-- `checkTopicOutputs` (lines 59–72): fetch every record of the collection
and evaluate each in order; the surrounding `try/catch` turns a fetch
rejection into an error log and a normal return. -/
def checkTopicOutputs (cfg : JanitorConfig) (env : JanitorEnv) (collectionName : String) :
    Except Unit (List Event) :=
  match env.fetchAll collectionName with
  | .error _ => .ok [Event.log .collectionError]
  | .ok outputs => .ok (outputs.flatMap (checkOutput cfg env))

/-- `run` (lines 39–54): sweep `shipRecords` then `slapRecords`; the catch
re-throws, so an error from either sweep would propagate. -/
def run (cfg : JanitorConfig) (env : JanitorEnv) : Except Unit (List Event) :=
  match checkTopicOutputs cfg env "shipRecords" with
  | .error e => .error e
  | .ok t1 =>
    match checkTopicOutputs cfg env "slapRecords" with
    | .error e => .error e
    | .ok t2 => .ok (t1 ++ t2)

/-! ## Spec-side definitions (for the refinement claims) -/

/-- Modelled from the spec: "accept if it parses as a URL (defaulting to an
`https://` scheme if no scheme is present) whose hostname matches one of"
the three patterns — identical to `isValidDomain` except that the
https-defaulting test is *the absence of a URL scheme* rather than the
code's `startsWith('http')`. -/
def specIsValidAddress (url : String) : Bool :=
  let u := url.data
  let toParse := if (splitScheme (urlPreprocess u)).isSome then u else httpsSchemeChars ++ u
  match parseURL toParse with
  | none => false
  | some parts =>
    domainRegexTest parts.host || localhostTest parts.host || ipv4RegexTest parts.host

/-- The amended form of the previous definition: the https default is
applied exactly when the string does not start with `"http"` — the rule the
code actually implements. -/
def specIsValidAddressAmended (url : String) : Bool :=
  match parseURL (if startsWithChars httpChars url.data then url.data
                  else httpsSchemeChars ++ url.data) with
  | none => false
  | some parts =>
    domainRegexTest parts.host || localhostTest parts.host || ipv4RegexTest parts.host

/-- Spec-side healthy verdict for a settled response: status success AND the
parsed JSON body's `status` field equal to the string `"ok"`. -/
def specHealthy : FetchResult → Bool
  | .response true (some (some (.str s))) => s = "ok"
  | _ => false

/-- Does the trace issue this store action (successfully or not)? -/
def issues (t : List Event) (a : StoreAction) : Bool :=
  t.any (fun e =>
    match e with
    | .store a' _ => a' = a
    | _ => false)

/-- Does the trace issue any increment/decrement at all for this id? -/
def issuesAnyInc (t : List Event) (id : Nat) : Bool :=
  t.any (fun e =>
    match e with
    | .store (.inc i _) _ => i = id
    | _ => false)

/-- Does the trace issue a delete for this id? -/
def issuesAnyDel (t : List Event) (id : Nat) : Bool :=
  t.any (fun e =>
    match e with
    | .store (.del i) _ => i = id
    | _ => false)

/-- Does the trace contain any store mutation or probe at all? -/
def touchesWorld (t : List Event) : Bool :=
  t.any (fun e =>
    match e with
    | .store _ _ => true
    | .probe _ => true
    | _ => false)

/-- Is the optional field a string? (`typeof x === 'string'`). -/
def isStringVal : Option JSVal → Bool
  | some (.str _) => true
  | _ => false

/-- The protocols fallback of the extractor, in isolation. -/
def protocolsPick : Option (List JSVal) → Option String
  | some ps =>
    if ps.length > 0 then
      match ps.find? isHttpsString with
      | some (.str s) => some s
      | _ => none
    else none
  | none => none

/-- No `https://`-prefixed string among the protocols (or no array). -/
def noHttpsEntry : Option (List JSVal) → Bool
  | some ps => ps.all (fun p => !isHttpsString p)
  | none => true

/-- Net effect of a trace's successful counter writes on `down`. -/
def netDelta (t : List Event) : Int :=
  t.foldl (fun acc e =>
    match e with
    | Event.store (StoreAction.inc _ d) true => acc + d
    | _ => acc) 0

/-- A record holding only a numeric `down` counter. -/
def mkDownRecord (d : Int) : OutputRecord :=
  { id := 0, down := some (.num d) }

/-- The store's `down` value after one healthy evaluation of a record whose
snapshot `down` is `d`. -/
def stepHealthyDown (env : JanitorEnv) (d : Int) : Int :=
  d + netDelta (handleHealthyOutput env (mkDownRecord d))

/-- `down` after a sequence of `k` healthy evaluations. -/
def healthyIter (env : JanitorEnv) : Nat → Int → Int
  | 0, d => d
  | k + 1, d => healthyIter env k (stepHealthyDown env d)

/-- The events one collection sweep produces. -/
def topicTrace (cfg : JanitorConfig) (env : JanitorEnv) (collectionName : String) :
    List Event :=
  match env.fetchAll collectionName with
  | .error _ => [Event.log .collectionError]
  | .ok outputs => outputs.flatMap (checkOutput cfg env)

/-- Characters of the string `a.b.c.d`. -/
def quadChars (a b c d : Nat) : List Char :=
  reprChars a ++ '.' :: (reprChars b ++ '.' :: (reprChars c ++ '.' :: reprChars d))

/-- The string `a.b.c.d`. -/
def dottedQuad (a b c d : Nat) : String :=
  String.mk (quadChars a b c d)

/-- Decimal digit or dot — every character of a dotted quad. -/
def isDigitOrDot (c : Char) : Bool := isDigitChar c || c.toNat = 46

/-- The by-computation facts about the decimal rendering of one byte: it is
a nonempty string of at most three digits, unchanged by lowercasing, that
the WHATWG IPv4 number parser reads back as the same value. -/
def reprByteGood (n : Nat) : Bool :=
  !(reprChars n).isEmpty && (reprChars n).length ≤ 3 &&
  (reprChars n).all isDigitChar &&
  ((reprChars n).map Char.toLower = reprChars n) &&
  (ipv4NumberPart (reprChars n) = some n)

/-! ## Concrete fixtures used by witness theorems -/

/-- The default configuration (timeout 10000 ms, revoke score 3). -/
def cfgW : JanitorConfig := {}

/-- A probe that answers promptly with `200 {"status":"ok"}`. -/
def okBehavior : FetchBehavior :=
  { duration := 5, result := .response true (some (some (.str "ok"))) }

/-- A probe that takes 20 s — longer than the default 10 s timeout. -/
def slowBehavior : FetchBehavior :=
  { duration := 20000, result := .response true (some (some (.str "ok"))) }

/-- A healthy record at `down = 2`. -/
def recDown2 : OutputRecord :=
  { id := 1, domain := some (.str "example.com"), down := some (.num 2) }

/-- A record at the floor, `down = 0`. -/
def recDown0 : OutputRecord :=
  { id := 2, domain := some (.str "example.com"), down := some (.num 0) }

/-- A record with both `domain` and `protocols` set. -/
def recBoth : OutputRecord :=
  { id := 4, domain := some (.str "d.example.com"),
    protocols := some [.str "wss://x", .str "https://p.example.com"] }

/-- A record with no string address field and no https protocol entry. -/
def recNoAddr : OutputRecord :=
  { id := 3, domain := some (.num 7), protocols := some [.str "wss://x", .num 1] }

/-- A record carrying only a protocols list with one https entry. -/
def recProt : OutputRecord :=
  { id := 6, protocols := some [.str "wss://x", .str "https://svc.example.com"] }

/-- A record with no `domain` but a string `url`, plus a string `serviceURL`
and an https protocols entry that must both lose to it. -/
def recUrl : OutputRecord :=
  { id := 10, url := some (.str "u.example.com"),
    serviceURL := some (.str "s.example.com"),
    protocols := some [.str "https://p.example.com"] }

/-- A record with no `domain` or `url` but a string `serviceURL`, plus an
https protocols entry that must lose to it. -/
def recService : OutputRecord :=
  { id := 11, serviceURL := some (.str "s.example.com"),
    protocols := some [.str "https://p.example.com"] }

/-- A record whose `down` snapshot is 7. -/
def recDown7 : OutputRecord :=
  { id := 8, domain := some (.str "example.com"), down := some (.num 7) }

/-- An environment where everything works and every probe is healthy. -/
def envOk : JanitorEnv :=
  { fetchAll := fun _ => .ok []
    fetchBehavior := fun _ => okBehavior
    write := fun _ => true
    recordFault := fun _ => false }

/-- Ship fetch rejects; slap holds one record; all else works. -/
def envShipFail : JanitorEnv :=
  { fetchAll := fun name => if name = "shipRecords" then .error () else .ok [recDown2]
    fetchBehavior := fun _ => okBehavior
    write := fun _ => true
    recordFault := fun _ => false }

/-- Both collection fetches reject. -/
def envBothFail : JanitorEnv :=
  { fetchAll := fun _ => .error ()
    fetchBehavior := fun _ => okBehavior
    write := fun _ => true
    recordFault := fun _ => false }

/-- Evaluating `recDown2` throws, the store rejects every write, and the
collection holds `recDown0`, `recDown2`, `recDown7` in order. -/
def envFault : JanitorEnv :=
  { fetchAll := fun _ => .ok [recDown0, recDown2, recDown7]
    fetchBehavior := fun _ => okBehavior
    write := fun _ => false
    recordFault := fun o => o = recDown2 }

/-- A probe environment whose single address times out. -/
def envSlow : JanitorEnv :=
  { fetchAll := fun _ => .ok []
    fetchBehavior := fun _ => slowBehavior
    write := fun _ => true
    recordFault := fun _ => false }

/-! ## General lemmas -/

theorem takeWhile_all {α : Type} (p : α → Bool) :
    ∀ l : List α, l.all p = true → l.takeWhile p = l := by
  intro l h
  induction l with
  | nil => rfl
  | cons a t ih =>
    simp only [List.all_cons, Bool.and_eq_true] at h
    simp [List.takeWhile_cons, h.1, ih h.2]

theorem dropWhile_all_neg {α : Type} (p : α → Bool) :
    ∀ l : List α, l.all (fun c => !p c) = true → l.dropWhile p = l := by
  intro l h
  cases l with
  | nil => rfl
  | cons a t =>
    simp only [List.all_cons, Bool.and_eq_true, Bool.not_eq_true'] at h
    simp [List.dropWhile_cons, h.1]

theorem filter_all {α : Type} (p : α → Bool) :
    ∀ l : List α, l.all p = true → l.filter p = l := by
  intro l h
  induction l with
  | nil => rfl
  | cons a t ih =>
    simp only [List.all_cons, Bool.and_eq_true] at h
    simp [List.filter_cons, h.1, ih h.2]

theorem any_eq_false_of_all_neg {α : Type} (p : α → Bool) :
    ∀ l : List α, l.all (fun c => !p c) = true → l.any p = false := by
  intro l h
  induction l with
  | nil => rfl
  | cons a t ih =>
    simp only [List.all_cons, Bool.and_eq_true, Bool.not_eq_true'] at h
    simp [List.any_cons, h.1, ih (by simpa using h.2)]

theorem all_weaken {α : Type} {p q : α → Bool} (hpq : ∀ c, p c = true → q c = true) :
    ∀ l : List α, l.all p = true → l.all q = true := by
  intro l h
  induction l with
  | nil => rfl
  | cons a t ih =>
    simp only [List.all_cons, Bool.and_eq_true] at h ⊢
    exact ⟨hpq a h.1, ih h.2⟩

theorem splitDots_append (l1 l2 : List Char)
    (h : l1.all (fun c => !(c.toNat = 46 : Bool)) = true) :
    splitDots (l1 ++ '.' :: l2) = l1 :: splitDots l2 := by
  induction l1 with
  | nil => simp [splitDots]
  | cons a t ih =>
    simp only [List.all_cons, Bool.and_eq_true] at h
    have h1 : ¬ a.toNat = 46 := by simpa using h.1
    have ih2 := ih h.2
    simp only [List.cons_append, splitDots, List.append_eq]
    rw [ih2]
    simp [h1]

theorem splitDots_no_dot (l : List Char)
    (h : l.all (fun c => !(c.toNat = 46 : Bool)) = true) :
    splitDots l = [l] := by
  induction l with
  | nil => rfl
  | cons a t ih =>
    simp only [List.all_cons, Bool.and_eq_true] at h
    have h1 : ¬ a.toNat = 46 := by simpa using h.1
    have ih2 := ih h.2
    simp only [splitDots]
    rw [ih2]
    simp [h1]

/-! ## Facts about the decimal rendering of bytes -/

theorem reprByteGood_all : ∀ n, n < 256 → reprByteGood n = true := by decide

theorem repr_ne_nil {n : Nat} (h : n < 256) : (reprChars n).isEmpty = false := by
  have := reprByteGood_all n h
  simp only [reprByteGood, Bool.and_eq_true, Bool.not_eq_true'] at this
  exact this.1.1.1.1

theorem repr_len {n : Nat} (h : n < 256) : (reprChars n).length ≤ 3 := by
  have := reprByteGood_all n h
  simp only [reprByteGood, Bool.and_eq_true, decide_eq_true_eq] at this
  exact this.1.1.1.2

theorem repr_digits {n : Nat} (h : n < 256) : (reprChars n).all isDigitChar = true := by
  have := reprByteGood_all n h
  simp only [reprByteGood, Bool.and_eq_true] at this
  exact this.1.1.2

theorem repr_lower {n : Nat} (h : n < 256) :
    (reprChars n).map Char.toLower = reprChars n := by
  have := reprByteGood_all n h
  simp only [reprByteGood, Bool.and_eq_true, decide_eq_true_eq] at this
  exact this.1.2

theorem repr_ipv4 {n : Nat} (h : n < 256) : ipv4NumberPart (reprChars n) = some n := by
  have := reprByteGood_all n h
  simp only [reprByteGood, Bool.and_eq_true, decide_eq_true_eq] at this
  exact this.2

/-! ## Dotted-quad lemmas -/

theorem digitOrDot_of_digit : ∀ c, isDigitChar c = true → isDigitOrDot c = true := by
  intro c h
  simp [isDigitOrDot, h]

theorem repr_no_dot {n : Nat} (h : n < 256) :
    (reprChars n).all (fun c => !(c.toNat = 46 : Bool)) = true := by
  refine all_weaken (fun c hc => ?_) _ (repr_digits h)
  simp only [isDigitChar, Bool.and_eq_true, decide_eq_true_eq] at hc
  simp only [Bool.not_eq_true', decide_eq_false_iff_not]
  omega

theorem quad_all_dod {a b c d : Nat} (ha : a < 256) (hb : b < 256) (hc : c < 256)
    (hd : d < 256) : (quadChars a b c d).all isDigitOrDot = true := by
  have hdot : isDigitOrDot '.' = true := by decide
  simp only [quadChars, List.all_append, List.all_cons, hdot, Bool.and_eq_true, Bool.true_and]
  refine ⟨?_, ?_, ?_, ?_⟩ <;>
    exact all_weaken digitOrDot_of_digit _ (repr_digits (by omega))

theorem quad_lower {a b c d : Nat} (ha : a < 256) (hb : b < 256) (hc : c < 256)
    (hd : d < 256) :
    (quadChars a b c d).map Char.toLower = quadChars a b c d := by
  have hdot : '.'.toLower = '.' := by decide
  simp only [quadChars, List.map_append, List.map_cons, hdot,
    repr_lower ha, repr_lower hb, repr_lower hc, repr_lower hd]

theorem quad_splitDots {a b c d : Nat} (ha : a < 256) (hb : b < 256) (hc : c < 256)
    (hd : d < 256) :
    splitDots (quadChars a b c d) =
      [reprChars a, reprChars b, reprChars c, reprChars d] := by
  rw [quadChars, splitDots_append _ _ (repr_no_dot ha),
    splitDots_append _ _ (repr_no_dot hb), splitDots_append _ _ (repr_no_dot hc),
    splitDots_no_dot _ (repr_no_dot hd)]

theorem urlPreprocess_id (l : List Char)
    (h : l.all (fun c => !(c.toNat ≤ 32 : Bool)) = true) : urlPreprocess l = l := by
  have h2 : l.reverse.all (fun c => !(c.toNat ≤ 32 : Bool)) = true := by
    rw [List.all_reverse]; exact h
  rw [urlPreprocess, dropWhile_all_neg _ _ h, dropWhile_all_neg _ _ h2,
    List.reverse_reverse, filter_all]
  refine all_weaken (fun c hc => ?_) _ h
  simp only [Bool.not_eq_true', decide_eq_false_iff_not] at hc
  simp only [Bool.not_eq_true', Bool.or_eq_false_iff, decide_eq_false_iff_not]
  omega

theorem splitScheme_https (rs : List Char) :
    splitScheme ('h' :: 't' :: 't' :: 'p' :: 's' :: ':' :: rs) =
      some (['h', 't', 't', 'p', 's'], rs) := by
  have e1 : isSchemeChar 'h' = true := by decide
  have e2 : isSchemeChar 't' = true := by decide
  have e3 : isSchemeChar 'p' = true := by decide
  have e4 : isSchemeChar 's' = true := by decide
  have e5 : isSchemeChar ':' = false := by decide
  have f1 : 'h'.toLower = 'h' := by decide
  have f2 : 't'.toLower = 't' := by decide
  have f3 : 'p'.toLower = 'p' := by decide
  have f4 : 's'.toLower = 's' := by decide
  have g1 : (':'.toNat = 58) = True := eq_true (by decide)
  have g2 : isAsciiAlpha 'h' = true := by decide
  simp [splitScheme, List.takeWhile, List.dropWhile, e1, e2, e3, e4, e5,
    f1, f2, f3, f4, g1, g2]

theorem parseIPv4_quad {a b c d : Nat} (ha : a < 256) (hb : b < 256) (hc : c < 256)
    (hd : d < 256) :
    parseIPv4 (quadChars a b c d) = some (((a * 256 + b) * 256 + c) * 256 + d) := by
  have hdne : reprChars d ≠ [] := by
    intro e
    have := repr_ne_nil hd
    rw [e] at this
    simp at this
  have h255a : (255 < a) = False := eq_false (by omega)
  have h255b : (255 < b) = False := eq_false (by omega)
  have h255c : (255 < c) = False := eq_false (by omega)
  simp only [parseIPv4, quad_splitDots ha hb hc hd]
  simp [hdne, ipv4NumberList, repr_ipv4 ha, repr_ipv4 hb, repr_ipv4 hc, repr_ipv4 hd,
    h255a, h255b, h255c, List.foldl]
  omega

theorem serializeIPv4_quad {a b c d : Nat} (ha : a < 256) (hb : b < 256) (hc : c < 256)
    (hd : d < 256) :
    serializeIPv4 (((a * 256 + b) * 256 + c) * 256 + d) = quadChars a b c d := by
  have e1 : (((a * 256 + b) * 256 + c) * 256 + d) / 16777216 % 256 = a := by omega
  have e2 : (((a * 256 + b) * 256 + c) * 256 + d) / 65536 % 256 = b := by omega
  have e3 : (((a * 256 + b) * 256 + c) * 256 + d) / 256 % 256 = c := by omega
  have e4 : (((a * 256 + b) * 256 + c) * 256 + d) % 256 = d := by omega
  rw [serializeIPv4, e1, e2, e3, e4, quadChars]

theorem parseHost_quad {a b c d : Nat} (ha : a < 256) (hb : b < 256) (hc : c < 256)
    (hd : d < 256) :
    parseHost (quadChars a b c d) = some (quadChars a b c d) := by
  have hdod := quad_all_dod ha hb hc hd
  have hdne : reprChars d ≠ [] := by
    intro e
    have := repr_ne_nil hd
    rw [e] at this
    simp at this
  have hne : (quadChars a b c d).isEmpty = false := by
    cases hra : reprChars a with
    | nil =>
      have := repr_ne_nil ha
      rw [hra] at this
      simp at this
    | cons c0 t0 => simp [quadChars, hra]
  have hforb : (quadChars a b c d).any forbiddenHostChar = false := by
    refine any_eq_false_of_all_neg _ _ (all_weaken (fun ch hch => ?_) _ hdod)
    simp only [isDigitOrDot, isDigitChar, Bool.or_eq_true, Bool.and_eq_true,
      decide_eq_true_eq] at hch
    simp only [forbiddenHostChar, Bool.not_eq_true', Bool.or_eq_false_iff,
      decide_eq_false_iff_not]
    omega
  have hei : endsInNumber (quadChars a b c d) = true := by
    simp only [endsInNumber, quad_splitDots ha hb hc hd]
    rw [if_neg (by simp [hdne])]
    simp [repr_ne_nil hd, repr_digits hd]
  simp only [parseHost, hne, hforb, quad_lower ha hb hc hd, hei,
    parseIPv4_quad ha hb hc hd, Bool.false_eq_true, if_false, if_true]
  simp [serializeIPv4_quad ha hb hc hd]

theorem parseURL_quad {a b c d : Nat} (ha : a < 256) (hb : b < 256) (hc : c < 256)
    (hd : d < 256) :
    parseURL (httpsSchemeChars ++ quadChars a b c d) =
      some ⟨['h', 't', 't', 'p', 's'], quadChars a b c d, none⟩ := by
  have hdod : (quadChars a b c d).all isDigitOrDot = true := quad_all_dod ha hb hc hd
  have hq32 : (quadChars a b c d).all (fun c => !(c.toNat ≤ 32 : Bool)) = true := by
    refine all_weaken (fun ch hch => ?_) _ hdod
    simp only [isDigitOrDot, isDigitChar, Bool.or_eq_true, Bool.and_eq_true,
      decide_eq_true_eq] at hch
    simp only [Bool.not_eq_true', decide_eq_false_iff_not]
    omega
  have hpre : urlPreprocess (httpsSchemeChars ++ quadChars a b c d) =
      httpsSchemeChars ++ quadChars a b c d := by
    apply urlPreprocess_id
    rw [List.all_append]
    simp only [Bool.and_eq_true]
    exact ⟨by decide, hq32⟩
  have hcons : httpsSchemeChars ++ quadChars a b c d =
      'h' :: 't' :: 't' :: 'p' :: 's' :: ':' :: ('/' :: '/' :: quadChars a b c d) := rfl
  have hnoslash : (quadChars a b c d).dropWhile
      (fun c => (c.toNat = 47 : Bool) || (c.toNat = 92 : Bool)) = quadChars a b c d := by
    refine dropWhile_all_neg _ _ (all_weaken (fun ch hch => ?_) _ hdod)
    simp only [isDigitOrDot, isDigitChar, Bool.or_eq_true, Bool.and_eq_true,
      decide_eq_true_eq] at hch
    simp only [Bool.not_eq_true', Bool.or_eq_false_iff, decide_eq_false_iff_not]
    omega
  have hslurp : List.dropWhile (fun c => (c.toNat = 47 : Bool) || (c.toNat = 92 : Bool))
      ('/' :: '/' :: quadChars a b c d) = quadChars a b c d := by
    have d1 : ((('/' : Char).toNat = 47 : Bool) || (('/' : Char).toNat = 92 : Bool)) = true := by
      decide
    simp only [List.dropWhile_cons, d1, if_true]
    exact hnoslash
  have hauth : (quadChars a b c d).takeWhile
      (fun c => !((c.toNat = 47 : Bool) || (c.toNat = 92 : Bool) ||
        (c.toNat = 63 : Bool) || (c.toNat = 35 : Bool))) = quadChars a b c d := by
    refine takeWhile_all _ _ (all_weaken (fun ch hch => ?_) _ hdod)
    simp only [isDigitOrDot, isDigitChar, Bool.or_eq_true, Bool.and_eq_true,
      decide_eq_true_eq] at hch
    simp only [Bool.not_eq_true', Bool.or_eq_false_iff, decide_eq_false_iff_not]
    omega
  have hat : afterLastAt (quadChars a b c d) = quadChars a b c d := by
    have hrev : (quadChars a b c d).reverse.all (fun c => !(c.toNat = 64 : Bool)) = true := by
      rw [List.all_reverse]
      refine all_weaken (fun ch hch => ?_) _ hdod
      simp only [isDigitOrDot, isDigitChar, Bool.or_eq_true, Bool.and_eq_true,
        decide_eq_true_eq] at hch
      simp only [Bool.not_eq_true', decide_eq_false_iff_not]
      omega
    rw [afterLastAt, takeWhile_all _ _ hrev, List.reverse_reverse]
  have hcolon_take : (quadChars a b c d).takeWhile (fun c => !(c.toNat = 58 : Bool)) =
      quadChars a b c d := by
    refine takeWhile_all _ _ (all_weaken (fun ch hch => ?_) _ hdod)
    simp only [isDigitOrDot, isDigitChar, Bool.or_eq_true, Bool.and_eq_true,
      decide_eq_true_eq] at hch
    simp only [Bool.not_eq_true', decide_eq_false_iff_not]
    omega
  have hcolon_any : (quadChars a b c d).any (fun c => (c.toNat = 58 : Bool)) = false := by
    refine any_eq_false_of_all_neg _ _ (all_weaken (fun ch hch => ?_) _ hdod)
    simp only [isDigitOrDot, isDigitChar, Bool.or_eq_true, Bool.and_eq_true,
      decide_eq_true_eq] at hch
    simp only [Bool.not_eq_true', decide_eq_false_iff_not]
    omega
  have hspec : isSpecialScheme ['h', 't', 't', 'p', 's'] = true := by decide
  simp only [parseURL]
  rw [hpre, hcons, splitScheme_https]
  simp only [hspec, if_true, hslurp, hauth, hat, hcolon_take,
    parseHost_quad ha hb hc hd, parsePort, hcolon_any, Bool.false_eq_true, if_false]

theorem isValidDomain_quad {a b c d : Nat} (ha : a < 256) (hb : b < 256) (hc : c < 256)
    (hd : d < 256) : isValidDomain (dottedQuad a b c d) = true := by
  have hdata : (dottedQuad a b c d).data = quadChars a b c d := rfl
  have hstart : startsWithChars httpChars (quadChars a b c d) = false := by
    cases hra : reprChars a with
    | nil =>
      exfalso
      have := repr_ne_nil ha
      rw [hra] at this
      simp at this
    | cons c0 t0 =>
      have hc0 : isDigitChar c0 = true := by
        have hall := repr_digits ha
        rw [hra] at hall
        simp only [List.all_cons, Bool.and_eq_true] at hall
        exact hall.1
      have hne : ('h' = c0) = False := by
        refine eq_false fun e => ?_
        rw [← e] at hc0
        exact absurd hc0 (by decide)
      have hqc : quadChars a b c d =
          c0 :: (t0 ++ '.' :: (reprChars b ++ '.' :: (reprChars c ++ '.' :: reprChars d))) := by
        rw [quadChars, hra, List.cons_append]
      rw [hqc]
      simp [startsWithChars, httpChars, hne]
  have hfull : fullChars (dottedQuad a b c d) = httpsSchemeChars ++ quadChars a b c d := by
    rw [fullChars, hdata, hstart]
    simp
  have hipv4 : ipv4RegexTest (quadChars a b c d) = true := by
    simp only [ipv4RegexTest, quad_lower ha hb hc hd, quad_splitDots ha hb hc hd]
    simp [repr_ne_nil ha, repr_ne_nil hb, repr_ne_nil hc, repr_ne_nil hd,
      repr_len ha, repr_len hb, repr_len hc, repr_len hd,
      repr_digits ha, repr_digits hb, repr_digits hc, repr_digits hd]
  simp only [isValidDomain, hfull, parseURL_quad ha hb hc hd, hipv4, Bool.or_true]

/-! ## Helpers shared by the claim theorems -/

theorem extract_eq_protocolsPick (o : OutputRecord)
    (h1 : isStringVal o.domain = false) (h2 : isStringVal o.url = false)
    (h3 : isStringVal o.serviceURL = false) :
    extractURLFromOutput o = protocolsPick o.protocols := by
  rcases hD : o.domain with _ | vD <;> try cases vD
  all_goals rcases hU : o.url with _ | vU <;> try cases vU
  all_goals rcases hS : o.serviceURL with _ | vS <;> try cases vS
  all_goals simp_all [extractURLFromOutput, protocolsPick, isStringVal]

theorem find_first_https (pre post : List JSVal) (s : String)
    (hs : isHttpsString (JSVal.str s) = true)
    (hpre : ∀ q ∈ pre, isHttpsString q = false) :
    (pre ++ JSVal.str s :: post).find? isHttpsString = some (JSVal.str s) := by
  induction pre with
  | nil => simp [List.find?, hs]
  | cons q qs ih =>
    have hq : isHttpsString q = false := hpre q (by simp)
    simp only [List.cons_append, List.find?, hq]
    exact ih (fun q' hq' => hpre q' (by simp [hq']))

/-- C1: on an unhealthy outcome with `candidate = (numeric `down` snapshot,
default 0) + 1`, the Janitor deletes the record when
`candidate ≥ hostDownRevokeScore` (and issues no increment), and otherwise
issues exactly one increment of the `down` field by 1 (and no delete).
`downValue` is the snapshot with the code's default (a non-numeric or
absent `down` counts as 0). -/
theorem janitor_c1_unhealthy_threshold (cfg : JanitorConfig) (env : JanitorEnv)
    (o : OutputRecord) :
    (downValue o + 1 ≥ cfg.hostDownRevokeScore →
      issues (handleUnhealthyOutput cfg env o) (StoreAction.del o.id) = true ∧
      issuesAnyInc (handleUnhealthyOutput cfg env o) o.id = false) ∧
    (downValue o + 1 < cfg.hostDownRevokeScore →
      issues (handleUnhealthyOutput cfg env o) (StoreAction.inc o.id 1) = true ∧
      issuesAnyDel (handleUnhealthyOutput cfg env o) o.id = false ∧
      ∀ dlt : Int, issues (handleUnhealthyOutput cfg env o) (StoreAction.inc o.id dlt) = true →
        dlt = 1) := by
  constructor
  · intro h
    cases hw : env.write (StoreAction.del o.id) <;>
      simp [handleUnhealthyOutput, issueWrite, h, hw, issues, issuesAnyInc]
  · intro h
    have hn : ¬ downValue o + 1 ≥ cfg.hostDownRevokeScore := by omega
    cases hw : env.write (StoreAction.inc o.id 1) <;>
      simp [handleUnhealthyOutput, issueWrite, hn, hw, issues, issuesAnyDel]

/-- Witness for C1: with the default score 3, a record at `down = 2` is
deleted and a record at `down = 0` is incremented. -/
theorem janitor_c1_witness :
    issues (handleUnhealthyOutput cfgW envOk recDown2) (StoreAction.del recDown2.id) = true ∧
    issues (handleUnhealthyOutput cfgW envOk recDown0) (StoreAction.inc recDown0.id 1) = true :=
  ⟨((janitor_c1_unhealthy_threshold cfgW envOk recDown2).1 (by decide)).1,
   ((janitor_c1_unhealthy_threshold cfgW envOk recDown0).2 (by decide)).1⟩

/-- C2: on a healthy outcome the Janitor issues the atomic decrement exactly
when the snapshot `down` is a (numeric) value strictly above 0 — `downValue`
is positive precisely when `down` holds a positive number — and otherwise
issues no write; iterating the healthy transition never drives the stored
`down` below 0. -/
theorem janitor_c2_healthy_saturation :
    (∀ (env : JanitorEnv) (o : OutputRecord),
      issues (handleHealthyOutput env o) (StoreAction.inc o.id (-1)) =
        decide (downValue o > 0) ∧
      (¬ downValue o > 0 → handleHealthyOutput env o = [])) ∧
    (∀ (env : JanitorEnv) (k : Nat) (d : Int), 0 ≤ d → 0 ≤ healthyIter env k d) := by
  have hstep : ∀ (env : JanitorEnv) (d : Int), 0 ≤ d → 0 ≤ stepHealthyDown env d := by
    intro env d hd
    by_cases h : d > 0
    · cases hw : env.write (StoreAction.inc 0 (-1)) <;>
        simp [stepHealthyDown, handleHealthyOutput, mkDownRecord, downValue, h, issueWrite,
          hw, netDelta, List.foldl] <;> omega
    · simp [stepHealthyDown, handleHealthyOutput, mkDownRecord, downValue, h, netDelta]
      omega
  constructor
  · intro env o
    constructor
    · by_cases h : downValue o > 0
      · cases hw : env.write (StoreAction.inc o.id (-1)) <;>
          simp [handleHealthyOutput, issueWrite, h, hw, issues]
      · simp [handleHealthyOutput, h, issues]
    · intro h
      simp [handleHealthyOutput, h]
  · intro env k
    induction k with
    | zero => intro d hd; simpa [healthyIter] using hd
    | succ n ih =>
      intro d hd
      simp only [healthyIter]
      exact ih _ (hstep env d hd)

/-- Witness for C2: a record at `down = 2` gets the decrement, a record at
`down = 0` gets no write, and five healthy rounds from 2 stay at or above
0. -/
theorem janitor_c2_witness :
    issues (handleHealthyOutput envOk recDown2) (StoreAction.inc recDown2.id (-1)) =
      decide (downValue recDown2 > 0) ∧
    handleHealthyOutput envOk recDown0 = [] ∧
    0 ≤ healthyIter envOk 5 2 :=
  ⟨(janitor_c2_healthy_saturation.1 envOk recDown2).1,
   (janitor_c2_healthy_saturation.1 envOk recDown0).2 (by decide),
   janitor_c2_healthy_saturation.2 envOk 5 2 (by decide)⟩

/-- C5: the full strict extraction priority `domain > url > serviceURL >
protocols`.  A string `domain` always wins (whatever else is set); with no
string `domain`, a string `url` wins (preempting `serviceURL` and
`protocols`); with neither, a string `serviceURL` wins (preempting
`protocols`); only when none of the three holds a string is the `protocols`
list consulted, and the first `https://`-prefixed string entry is
selected. -/
theorem janitor_c5_extraction_priority (o : OutputRecord) :
    (∀ s, o.domain = some (.str s) → extractURLFromOutput o = some s) ∧
    (∀ s, isStringVal o.domain = false → o.url = some (.str s) →
      extractURLFromOutput o = some s) ∧
    (∀ s, isStringVal o.domain = false → isStringVal o.url = false →
      o.serviceURL = some (.str s) → extractURLFromOutput o = some s) ∧
    (isStringVal o.domain = false → isStringVal o.url = false →
      isStringVal o.serviceURL = false →
      extractURLFromOutput o = protocolsPick o.protocols ∧
      ∀ (pre post : List JSVal) (s : String),
        o.protocols = some (pre ++ JSVal.str s :: post) →
        isHttpsString (JSVal.str s) = true →
        (∀ q ∈ pre, isHttpsString q = false) →
        extractURLFromOutput o = some s) := by
  refine ⟨?_, ?_, ?_, ?_⟩
  · intro s h
    simp [extractURLFromOutput, h]
  · intro s h1 h2
    rcases hD : o.domain with _ | vD <;> try cases vD
    all_goals simp_all [extractURLFromOutput, isStringVal]
  · intro s h1 h2 h3
    rcases hD : o.domain with _ | vD <;> try cases vD
    all_goals rcases hU : o.url with _ | vU <;> try cases vU
    all_goals simp_all [extractURLFromOutput, isStringVal]
  · intro h1 h2 h3
    have hred := extract_eq_protocolsPick o h1 h2 h3
    refine ⟨hred, fun pre post s hp hs hpre => ?_⟩
    rw [hred, hp]
    simp [protocolsPick, find_first_https pre post s hs hpre]

/-- Witness for C5, one record per step of the priority chain: `domain`
beats `protocols`; `url` beats `serviceURL` and `protocols`; `serviceURL`
beats `protocols`; a protocols-only record yields its first https entry. -/
theorem janitor_c5_witness :
    extractURLFromOutput recBoth = some "d.example.com" ∧
    extractURLFromOutput recUrl = some "u.example.com" ∧
    extractURLFromOutput recService = some "s.example.com" ∧
    extractURLFromOutput recProt = some "https://svc.example.com" :=
  ⟨(janitor_c5_extraction_priority recBoth).1 "d.example.com" rfl,
   (janitor_c5_extraction_priority recUrl).2.1 "u.example.com" (by decide) rfl,
   (janitor_c5_extraction_priority recService).2.2.1 "s.example.com" (by decide) (by decide)
     rfl,
   ((janitor_c5_extraction_priority recProt).2.2.2 (by decide) (by decide) (by decide)).2
     [JSVal.str "wss://x"] [] "https://svc.example.com" rfl (by decide) (by decide)⟩

/-- C9: a record with no string address field and no `https://` protocol
entry extracts no URL, and its evaluation performs no probe and no store
mutation — the trace is empty. -/
theorem janitor_c9_skip_no_effects (cfg : JanitorConfig) (env : JanitorEnv)
    (o : OutputRecord)
    (h1 : isStringVal o.domain = false) (h2 : isStringVal o.url = false)
    (h3 : isStringVal o.serviceURL = false) (h4 : noHttpsEntry o.protocols = true) :
    extractURLFromOutput o = none ∧ checkOutput cfg env o = [] := by
  have hpick : protocolsPick o.protocols = none := by
    cases hp : o.protocols with
    | none => rfl
    | some ps =>
      have hfind : ps.find? isHttpsString = none := by
        rw [List.find?_eq_none]
        intro x hx
        have := h4
        rw [hp] at this
        simp only [noHttpsEntry, List.all_eq_true] at this
        simpa using this x hx
      simp [protocolsPick, hfind]
  have hext : extractURLFromOutput o = none := by
    rw [extract_eq_protocolsPick o h1 h2 h3, hpick]
  exact ⟨hext, by simp [checkOutput, hext]⟩

/-- Witness for C9: a record whose `domain` is a number and whose protocols
hold no https string is skipped with no events. -/
theorem janitor_c9_witness :
    extractURLFromOutput recNoAddr = none ∧ checkOutput cfgW envOk recNoAddr = [] :=
  janitor_c9_skip_no_effects cfgW envOk recNoAddr (by decide) (by decide) (by decide)
    (by decide)

/-- Counterexample to C3: `"httpx.example.com"` has no URL scheme, so under
the claim's rule ("default `https://` whenever no scheme is present") it
parses with hostname `httpx.example.com` and is accepted — but the code only
defaults the scheme when the string does not start with `"http"`, so it
parses `"httpx.example.com"` as-is, the parse fails, and validation rejects
it. -/
theorem janitor_c3_counterexample :
    isValidDomain "httpx.example.com" = false ∧
    specIsValidAddress "httpx.example.com" = true := by
  constructor <;> decide

/-- C3 as amended: validation accepts an address exactly when it parses as a
URL — defaulting to `https://` whenever the string does not start with
`"http"` — whose hostname matches the FQDN pattern, `localhost`, or the
dotted-quad pattern (`specIsValidAddressAmended` is that rule, word for
word). -/
theorem janitor_c3_amended (url : String) :
    isValidDomain url = specIsValidAddressAmended url := rfl

/-- Counterexample to C10: `"999.999.999.999"` does match the code's
dotted-quad regex pattern (four groups of one to three digits), yet
validation rejects it: the WHATWG URL constructor throws on an IPv4-shaped
host whose parts exceed 255, so the hostname never reaches the regex. -/
theorem janitor_c10_counterexample :
    ipv4RegexTest ("999.999.999.999".data) = true ∧
    isValidDomain "999.999.999.999" = false := by
  constructor <;> decide

/-- C10 as amended: a dotted quad is accepted when each group is at most
255 (then URL host parsing succeeds and returns the same dotted quad, which
the regex accepts); groups above 255 make the URL constructor throw, so the
address is rejected (see the counterexample). -/
theorem janitor_c10_amended (a b c d : Nat) (ha : a < 256) (hb : b < 256)
    (hc : c < 256) (hd : d < 256) : isValidDomain (dottedQuad a b c d) = true :=
  isValidDomain_quad ha hb hc hd

/-- Witness for the amended C10: `203.0.113.7` is accepted. -/
theorem janitor_c10_witness : isValidDomain (dottedQuad 203 0 113 7) = true :=
  janitor_c10_amended 203 0 113 7 (by decide) (by decide) (by decide) (by decide)

/-- C4: for a probe against a valid address the health URL resolves, the
verdict equals "the request settled within `requestTimeoutMs` AND the
response was a success whose parsed JSON `status` is the string `ok`"
(`specHealthy`), a request that outlives the timeout is unhealthy and logs
the timeout-specific message, and the probe GET is always issued. -/
theorem janitor_c4_probe_semantics (cfg : JanitorConfig) (env : JanitorEnv)
    (url : String) (hv : isValidDomain url = true) :
    (healthProbeURL url).isSome = true ∧
    (checkHealthEndpoint cfg env url).1 =
      (decide ((env.fetchBehavior ((healthProbeURL url).getD "")).duration ≤
          cfg.requestTimeoutMs) &&
        specHealthy (env.fetchBehavior ((healthProbeURL url).getD "")).result) ∧
    (cfg.requestTimeoutMs < (env.fetchBehavior ((healthProbeURL url).getD "")).duration →
      (checkHealthEndpoint cfg env url).1 = false ∧
      Event.log .timeout ∈ (checkHealthEndpoint cfg env url).2) ∧
    Event.probe ((healthProbeURL url).getD "") ∈ (checkHealthEndpoint cfg env url).2 := by
  cases hp : parseURL (fullChars url) with
  | none =>
    rw [isValidDomain, hp] at hv
    cases hv
  | some parts =>
    have hurl : (healthProbeURL url).isSome = true := by
      simp [healthProbeURL, hp]
    obtain ⟨hURL, hh⟩ : ∃ h, healthProbeURL url = some h := by
      simp [healthProbeURL, hp]
    have hget : (healthProbeURL url).getD "" = hURL := by
      simp [hh]
    refine ⟨hurl, ?_⟩
    rw [hget]
    by_cases ht : cfg.requestTimeoutMs < (env.fetchBehavior hURL).duration
    · have hd : (decide ((env.fetchBehavior hURL).duration ≤ cfg.requestTimeoutMs)) = false := by
        simp
        omega
      refine ⟨?_, fun _ => ?_, ?_⟩ <;>
        simp [checkHealthEndpoint, hh, ht, hd]
    · have hd : (decide ((env.fetchBehavior hURL).duration ≤ cfg.requestTimeoutMs)) = true := by
        simp
        omega
      refine ⟨?_, fun hcontra => absurd hcontra ht, ?_⟩
      · cases hr : (env.fetchBehavior hURL).result with
        | networkError => simp [checkHealthEndpoint, hh, ht, hr, hd, specHealthy]
        | response ok body =>
          cases ok with
          | false => simp [checkHealthEndpoint, hh, ht, hr, hd, specHealthy]
          | true =>
            cases body with
            | none => simp [checkHealthEndpoint, hh, ht, hr, hd, specHealthy]
            | some st =>
              cases st with
              | none => simp [checkHealthEndpoint, hh, ht, hr, hd, specHealthy]
              | some v =>
                cases v <;> simp [checkHealthEndpoint, hh, ht, hr, hd, specHealthy]
      · cases hr : (env.fetchBehavior hURL).result with
        | networkError => simp [checkHealthEndpoint, hh, ht, hr]
        | response ok body =>
          cases ok with
          | false => simp [checkHealthEndpoint, hh, ht, hr]
          | true =>
            cases body with
            | none => simp [checkHealthEndpoint, hh, ht, hr]
            | some st => simp [checkHealthEndpoint, hh, ht, hr]

/-- Witness for C4: against `example.com`, a prompt `200 {"status":"ok"}`
environment satisfies the characterization, and a 20 s environment (default
timeout 10 s) is unhealthy with the timeout log line. -/
theorem janitor_c4_witness :
    ((healthProbeURL "example.com").isSome = true ∧
      (checkHealthEndpoint cfgW envOk "example.com").1 =
        (decide ((envOk.fetchBehavior ((healthProbeURL "example.com").getD "")).duration ≤
            cfgW.requestTimeoutMs) &&
          specHealthy (envOk.fetchBehavior ((healthProbeURL "example.com").getD "")).result) ∧
      (cfgW.requestTimeoutMs <
          (envOk.fetchBehavior ((healthProbeURL "example.com").getD "")).duration →
        (checkHealthEndpoint cfgW envOk "example.com").1 = false ∧
        Event.log .timeout ∈ (checkHealthEndpoint cfgW envOk "example.com").2) ∧
      Event.probe ((healthProbeURL "example.com").getD "") ∈
        (checkHealthEndpoint cfgW envOk "example.com").2) ∧
    ((checkHealthEndpoint cfgW envSlow "example.com").1 = false ∧
      Event.log .timeout ∈ (checkHealthEndpoint cfgW envSlow "example.com").2) :=
  ⟨janitor_c4_probe_semantics cfgW envOk "example.com" (by decide),
   (janitor_c4_probe_semantics cfgW envSlow "example.com" (by decide)).2.2.1 (by decide)⟩

/-- C6: when the `shipRecords` fetch rejects, the error is logged, the
`slapRecords` collection is still fetched and each of its records evaluated,
and `run` completes normally. -/
theorem janitor_c6_ship_failure_isolated (cfg : JanitorConfig) (env : JanitorEnv)
    (outs : List OutputRecord)
    (hship : env.fetchAll "shipRecords" = .error ())
    (hslap : env.fetchAll "slapRecords" = .ok outs) :
    run cfg env = .ok (Event.log .collectionError :: outs.flatMap (checkOutput cfg env)) := by
  simp [run, checkTopicOutputs, hship, hslap]

/-- Witness for C6: ship fetch fails, the slap record is still processed. -/
theorem janitor_c6_witness :
    run cfgW envShipFail = .ok (Event.log .collectionError ::
      [recDown2].flatMap (checkOutput cfgW envShipFail)) :=
  janitor_c6_ship_failure_isolated cfgW envShipFail [recDown2] rfl rfl

/-- Counterexample to C7: with both collection fetches rejecting, `run`
still returns normally (two error log lines) instead of propagating the
collection-level read failure to its caller. -/
theorem janitor_c7_counterexample :
    run cfgW envBothFail = .ok [Event.log .collectionError, Event.log .collectionError] := rfl

/-- C7 as amended: a collection-level read failure never propagates out of
`run` — each sweep catches its own fetch error, logs it, and `run` returns
normally with the two sweeps' traces. -/
theorem janitor_c7_amended (cfg : JanitorConfig) (env : JanitorEnv) :
    run cfg env =
      .ok (topicTrace cfg env "shipRecords" ++ topicTrace cfg env "slapRecords") := by
  cases h1 : env.fetchAll "shipRecords" <;> cases h2 : env.fetchAll "slapRecords" <;>
    simp [run, checkTopicOutputs, topicTrace, h1, h2]

/-- C8: a thrown error while evaluating one record is caught at the record
boundary: that record gets the best-effort unhealthy transition (whose store
write may itself fail — the environment's `write` is arbitrary, including
always-failing — without propagating), and the collection sweep still
returns normally with every other record evaluated. -/
theorem janitor_c8_record_isolation (cfg : JanitorConfig) (env : JanitorEnv)
    (name : String) (o : OutputRecord) (u : String) (pre post : List OutputRecord)
    (hext : extractURLFromOutput o = some u)
    (hfault : env.recordFault o = true)
    (hfetch : env.fetchAll name = .ok (pre ++ o :: post)) :
    checkOutput cfg env o = Event.log .checkError :: handleUnhealthyOutput cfg env o ∧
    checkTopicOutputs cfg env name = .ok
      (pre.flatMap (checkOutput cfg env) ++
        (Event.log .checkError :: handleUnhealthyOutput cfg env o) ++
        post.flatMap (checkOutput cfg env)) := by
  have h1 : checkOutput cfg env o = Event.log .checkError :: handleUnhealthyOutput cfg env o := by
    simp [checkOutput, hext, hfault]
  refine ⟨h1, ?_⟩
  simp [checkTopicOutputs, hfetch, h1]

/-- Witness for C8: in a collection `[recDown0, recDown2, recDown7]` where
evaluating `recDown2` throws and every store write fails, the faulty record
still gets the unhealthy attempt and the sweep covers the neighbours. -/
theorem janitor_c8_witness :
    checkOutput cfgW envFault recDown2 =
      Event.log .checkError :: handleUnhealthyOutput cfgW envFault recDown2 ∧
    checkTopicOutputs cfgW envFault "shipRecords" = .ok
      ([recDown0].flatMap (checkOutput cfgW envFault) ++
        (Event.log .checkError :: handleUnhealthyOutput cfgW envFault recDown2) ++
        [recDown7].flatMap (checkOutput cfgW envFault)) :=
  janitor_c8_record_isolation cfgW envFault "shipRecords" recDown2 "example.com"
    [recDown0] [recDown7] (by decide) (by decide) rfl
